import Mathlib

/-!
Verification development for the Sign Playback and Skeletal Animation Engine.

The definitions below are a shallow embedding of two source components:
  * `AvatarController` (src/unmute-fe/src/lib/avatar-controller.ts): the
    skeleton renderer (33-joint pose rig, two 21-joint hand rigs).
  * `useSignPlayback` (the hook containing `playSingleSign`, `playSequence`,
    `stopPlayback`): the playback scheduler with its session-token scheme.

Modelling conventions:
  * JS numbers are rationals; `NaN` and `null` rows inside a landmark array
    are not modelled (no claim mentions them), so a landmark row is a
    `List Rat` of arbitrary length, and the code paths guarded by
    `!p || !Array.isArray(p)` are unreachable in the model.
  * JS truthiness of an optional string (`undefined` and `""` are falsy) is
    the function `truthy`; truthiness of an optional array (`undefined`
    falsy, any array - even empty - truthy) is `Option.isSome`.
  * The renderer state keeps joint visibility and joint positions; a
    bone keeps only its visibility bit (its endpoints are recomputed from
    the joints on every update in the source, so they carry no extra state).
  * The scheduler is embedded as a state-passing interpreter.  The awaits of
    the source (`fetch`, `setTimeout`, `avatar.playSequence`) are suspension
    points that consume one `EnvAct` from a finite schedule: the environment
    may mutate the engine state (e.g. run `stopPlayback`) and advance the
    clock during a suspension.  A run that exhausts its schedule or its loop
    fuel is a truncated (still suspended) execution, reported with `none`.
-/

namespace Unmute

/-- Landmark row as delivered in the JSON payload: a list of coordinates.
The sentinel for an absent landmark is `(0,0,0)`. -/
abbrev Point := List ℚ

/-- Presence test used throughout avatar-controller.ts:
`p.length >= 3 && !isNaN(p[0]) && (p[0] !== 0 || p[1] !== 0 || p[2] !== 0)`. -/
def landmarkPresent (p : Point) : Bool :=
  decide (3 ≤ p.length) &&
    (decide (p.getD 0 0 ≠ (0 : ℚ)) || decide (p.getD 1 0 ≠ (0 : ℚ)) ||
      decide (p.getD 2 0 ≠ (0 : ℚ)))

/-- One rendered joint sphere: visibility flag and current position. -/
structure Joint where
  visible : Bool
  x : ℚ
  y : ℚ
  z : ℚ
deriving DecidableEq

/-- MediaPipe pose topology from `createRig` (35 connections over 33 joints). -/
def POSE_CONNECTIONS : List (Nat × Nat) :=
  [(0, 1), (1, 2), (2, 3), (3, 7),
   (0, 4), (4, 5), (5, 6), (6, 8),
   (9, 10),
   (11, 12),
   (11, 23), (12, 24),
   (23, 24),
   (11, 13), (13, 15),
   (15, 17), (15, 19), (15, 21),
   (17, 19),
   (12, 14), (14, 16),
   (16, 18), (16, 20), (16, 22),
   (18, 20),
   (23, 25), (25, 27),
   (27, 29), (29, 31),
   (27, 31),
   (24, 26), (26, 28),
   (28, 30), (30, 32),
   (28, 32)]

/-- MediaPipe hand topology (23 connections over 21 joints). -/
def HAND_CONNECTIONS : List (Nat × Nat) :=
  [(0, 1), (1, 2), (2, 3), (3, 4),
   (0, 5), (5, 6), (6, 7), (7, 8),
   (0, 9), (9, 10), (10, 11), (11, 12),
   (0, 13), (13, 14), (14, 15), (15, 16),
   (0, 17), (17, 18), (18, 19), (19, 20),
   (5, 9), (9, 13), (13, 17)]

/-- Renderer state: the fixed-topology rigs created once by the constructor.
Pose rig has 33 joints and 35 bones, each hand rig 21 joints and 23 bones. -/
structure AvState where
  joints : Fin 33 → Joint
  bones : Fin 35 → Bool
  leftHandJoints : Fin 21 → Joint
  rightHandJoints : Fin 21 → Joint
  leftHandBones : Fin 23 → Bool
  rightHandBones : Fin 23 → Bool

/-- Initial renderer state: every joint at the origin and invisible, every
bone hidden, exactly as `createRig` / `createHandRig` build the scene. -/
def initAvState : AvState :=
  { joints := fun _ => ⟨false, 0, 0, 0⟩
    bones := fun _ => false
    leftHandJoints := fun _ => ⟨false, 0, 0, 0⟩
    rightHandJoints := fun _ => ⟨false, 0, 0, 0⟩
    leftHandBones := fun _ => false
    rightHandBones := fun _ => false }

/-- Visibility of pose joint `i` (out-of-range indices are never produced by
the fixed connection lists, but are mapped to hidden). -/
def visAt33 (j : Fin 33 → Joint) (i : Nat) : Bool :=
  if h : i < 33 then (j ⟨i, h⟩).visible else false

/-- Visibility of hand joint `i`. -/
def visAt21 (j : Fin 21 → Joint) (i : Nat) : Bool :=
  if h : i < 21 then (j ⟨i, h⟩).visible else false

/-- Effect of `hideAllPose`: every pose joint and pose bone hidden. -/
def hideAllPose (s : AvState) : AvState :=
  { s with
    joints := fun i => { s.joints i with visible := false }
    bones := fun _ => false }

/-- Effect of `hideAllHands`: every hand joint and hand bone hidden. -/
def hideAllHands (s : AvState) : AvState :=
  { s with
    leftHandJoints := fun i => { s.leftHandJoints i with visible := false }
    rightHandJoints := fun i => { s.rightHandJoints i with visible := false }
    leftHandBones := fun _ => false
    rightHandBones := fun _ => false }

/-- Wire shape of one frame (`PoseFrame` in avatar-controller.ts): either a
pose payload or up to two hand payloads.  All fields optional. -/
structure PoseFrame where
  pose : Option (List Point) := none
  left_hand : Option (List Point) := none
  right_hand : Option (List Point) := none
deriving DecidableEq

/-- Embedding of `updateHand(points, joints, bones, offsetX)`.  Returns the
new joints, the new bone visibilities and the validity flag.  A hand of the
wrong length, or with no present landmark, is fully hidden (joints keep
their old positions) and reported invalid. -/
def updateHand (points : List Point) (joints : Fin 21 → Joint) (offsetX : ℚ) :
    (Fin 21 → Joint) × (Fin 23 → Bool) × Bool :=
  if points.length ≠ 21 then
    (fun i => { joints i with visible := false }, fun _ => false, false)
  else if ¬ points.any landmarkPresent then
    (fun i => { joints i with visible := false }, fun _ => false, false)
  else
    let joints' : Fin 21 → Joint := fun i =>
      let p := points.getD i.val []
      if landmarkPresent p then
        { visible := true
          x := (p.getD 0 0 - 1/2) * 2 + offsetX
          y := -((p.getD 1 0 - 1/2) * 2)
          z := -((p.getD 2 0 - 1/2) * (1/2)) }
      else { joints i with visible := false }
    let bones' : Fin 23 → Bool := fun k =>
      let c := HAND_CONNECTIONS.getD k.val (0, 0)
      visAt21 joints' c.1 && visAt21 joints' c.2
    (joints', bones', true)

/-- One side of the hand branch of `updateFrame`: when the hand payload is
absent (`undefined`), hide that rig and contribute no validity; when
present (any array, even empty or wrong-sized), run `updateHand` on it. -/
def handSide (points : Option (List Point)) (joints : Fin 21 → Joint)
    (offsetX : ℚ) : (Fin 21 → Joint) × (Fin 23 → Bool) × Bool :=
  match points with
  | some pts => updateHand pts joints offsetX
  | none => (fun i => { joints i with visible := false }, fun _ => false, false)

/-- Hand branch of `updateFrame`: hide the pose rig first, then update each
hand (left offset -0.5, right offset +0.5); valid when either hand update
was valid. -/
def handBranch (s : AvState) (f : PoseFrame) : AvState × Bool :=
  ({ hideAllPose s with
      leftHandJoints :=
        (handSide f.left_hand (hideAllPose s).leftHandJoints (-(1/2))).1
      leftHandBones :=
        (handSide f.left_hand (hideAllPose s).leftHandJoints (-(1/2))).2.1
      rightHandJoints :=
        (handSide f.right_hand (hideAllPose s).rightHandJoints (1/2)).1
      rightHandBones :=
        (handSide f.right_hand (hideAllPose s).rightHandJoints (1/2)).2.1 },
   (handSide f.left_hand (hideAllPose s).leftHandJoints (-(1/2))).2.2 ||
     (handSide f.right_hand (hideAllPose s).rightHandJoints (1/2)).2.2)

/-- Pose joints after the update loop of the pose branch: all joints are
first hidden, then every present landmark is placed (33 rows assumed by the
caller) and shown; absent landmarks stay hidden at their old position. -/
def poseJoints (points : List Point) (s0 : AvState) : Fin 33 → Joint :=
  fun i =>
    if landmarkPresent (points.getD i.val []) then
      { visible := true
        x := ((points.getD i.val []).getD 0 0 - 1/2) * (3/2)
        y := -(((points.getD i.val []).getD 1 0 - 1/2) * (3/2))
        z := -((points.getD i.val []).getD 2 0 * (3/4)) }
    else { (hideAllPose s0).joints i with visible := false }

/-- Pose bones recomputed after a pose update: a bone is visible exactly
when both endpoint joints are visible. -/
def poseBones (j : Fin 33 → Joint) : Fin 35 → Bool :=
  fun k =>
    visAt33 j (POSE_CONNECTIONS.getD k.val (0, 0)).1 &&
      visAt33 j (POSE_CONNECTIONS.getD k.val (0, 0)).2

/-- Pose branch of `updateFrame` (receives `frame.pose`): hide the hand
rigs first; a missing or wrong-length (not 33) or all-absent pose hides the
pose rig and is invalid; otherwise place the joints and recompute the
bones. -/
def poseBranch (s : AvState) : Option (List Point) → AvState × Bool
  | none => (hideAllPose (hideAllHands s), false)
  | some points =>
    if points.length ≠ 33 then (hideAllPose (hideAllHands s), false)
    else if ¬ points.any landmarkPresent then
      (hideAllPose (hideAllHands s), false)
    else
      ({ hideAllHands s with
          joints := poseJoints points (hideAllHands s)
          bones := poseBones (poseJoints points (hideAllHands s)) },
       true)

/-- Embedding of `AvatarController.updateFrame`.  Returns the new renderer
state and the validity flag.  `none` models a `null` frame. -/
def updateFrame : AvState → Option PoseFrame → AvState × Bool
  | s, none => (hideAllHands (hideAllPose s), false)
  | s, some f =>
    if f.left_hand.isSome || f.right_hand.isSome then handBranch s f
    else poseBranch s f.pose

/-- Embedding of the `checkHand` helper inside `checkFrameHasData`. -/
def checkHand : Option (List Point) → Bool
  | none => false
  | some pts => decide (pts.length = 21) && pts.any landmarkPresent

/-- Pose part of `checkFrameHasData` (receives `frame.pose`). -/
def checkPose : Option (List Point) → Bool
  | none => false
  | some pts => decide (pts.length = 33) && pts.any landmarkPresent

/-- Embedding of `AvatarController.checkFrameHasData`: the non-mutating
validity test used by the early-blank check of `playSequence`. -/
def checkFrameHasData (f : PoseFrame) : Bool :=
  if f.left_hand.isSome || f.right_hand.isSome then
    checkHand f.left_hand || checkHand f.right_hand
  else checkPose f.pose

/-- Main iteration of `AvatarController.playSequence`: walk the frames,
calling `updateFrame` on each, tracking the sticky `hasValidFrames` flag and
the `consecutiveBlankFrames` counter (threshold 10).  Returns the final
renderer state, the returned boolean, and the indices of the frames that
were passed to `updateFrame` (the per-frame sleep is not modelled; no claim
refers to its duration). -/
def playLoop (s : AvState) :
    List PoseFrame → Nat → Bool → Nat → AvState × Bool × List Nat
  | [], _, hasValid, _ => (s, hasValid, [])
  | f :: rest, i, hasValid, consec =>
    let t := updateFrame s (some f)
    if t.2 then
      let r := playLoop t.1 rest (i + 1) true 0
      (r.1, r.2.1, i :: r.2.2)
    else
      if hasValid ∧ 10 ≤ consec + 1 then (t.1, hasValid, [i])
      else
        let r := playLoop t.1 rest (i + 1) hasValid (consec + 1)
        (r.1, r.2.1, i :: r.2.2)

/-- Embedding of `AvatarController.playSequence(frames, fps)`.  The `fps`
argument only fixes the per-step sleep, which no claim refers to, so it is
not a parameter of the model.  Result: final renderer state, returned
boolean, and the indices rendered via `updateFrame`. -/
def avPlaySequence (s : AvState) : List PoseFrame → AvState × Bool × List Nat
  | [] => (s, false, [])
  | f0 :: rest =>
    if ((f0 :: rest).take 5).countP (fun f => ! checkFrameHasData f) =
        min 5 (f0 :: rest).length then
      ((updateFrame s (some f0)).1, false, [0])
    else
      playLoop s (f0 :: rest) 0 false 0

/-- Every joint and bone of both rigs is hidden. -/
def allHidden (s : AvState) : Prop :=
  (∀ i, (s.joints i).visible = false) ∧ (∀ k, s.bones k = false) ∧
  (∀ i, (s.leftHandJoints i).visible = false) ∧
  (∀ i, (s.rightHandJoints i).visible = false) ∧
  (∀ k, s.leftHandBones k = false) ∧ (∀ k, s.rightHandBones k = false)

/-- Every joint and bone of the pose rig is hidden. -/
def poseAllHidden (s : AvState) : Prop :=
  (∀ i, (s.joints i).visible = false) ∧ (∀ k, s.bones k = false)

/-- Every joint and bone of both hand rigs is hidden. -/
def handsAllHidden (s : AvState) : Prop :=
  (∀ i, (s.leftHandJoints i).visible = false) ∧
  (∀ i, (s.rightHandJoints i).visible = false) ∧
  (∀ k, s.leftHandBones k = false) ∧ (∀ k, s.rightHandBones k = false)

/-- The frame is wrong-shaped in the sense of the specification: every hand
array it carries has a length other than 21 (hand frame), or its pose array
is missing or has a length other than 33 (pose frame). -/
def badShaped (f : PoseFrame) : Bool :=
  if f.left_hand.isSome || f.right_hand.isSome then
    (match f.left_hand with
     | some l => decide (l.length ≠ 21)
     | none => true) &&
    (match f.right_hand with
     | some r => decide (r.length ≠ 21)
     | none => true)
  else
    match f.pose with
    | some p => decide (p.length ≠ 33)
    | none => true

/-- The frame is well-shaped: every hand array it carries has exactly 21
rows (hand frame), or it carries a pose array of exactly 33 rows. -/
def wellShaped (f : PoseFrame) : Bool :=
  if f.left_hand.isSome || f.right_hand.isSome then
    (match f.left_hand with
     | some l => decide (l.length = 21)
     | none => true) &&
    (match f.right_hand with
     | some r => decide (r.length = 21)
     | none => true)
  else
    match f.pose with
    | some p => decide (p.length = 33)
    | none => false

/-- At least one landmark of the input frame is present (non-sentinel). -/
def framePresent (f : PoseFrame) : Bool :=
  if f.left_hand.isSome || f.right_hand.isSome then
    (f.left_hand.getD []).any landmarkPresent ||
      (f.right_hand.getD []).any landmarkPresent
  else (f.pose.getD []).any landmarkPresent

/-! ## Playback scheduler (`useSignPlayback`)

State-passing embedding of `playSingleSign`, `playSequence` and
`stopPlayback`.  Conventions specific to this part:
  * `avatarRef.current` is assumed non-null for the whole run, so the
    avatar-waiting poll inside `playSingleSign` (its guard is
    `frames && !currentAvatar`) never executes.
  * `fetchLandmarks` catches every error internally and resolves with
    `null`, so the outer `catch` of `playSingleSign` is dead code and the
    fetch result is modelled as `Option LandmarksData`.
  * The GIF url cache-buster (`?t=` plus the current time) is abstracted
    away: the `setCurrentGifUrl` event carries the raw asset string.
-/

/-- Discriminant of a plan item (`type: "sign" | "text"`). -/
inductive ItemType where
  | sign
  | text
deriving DecidableEq

/-- One render-plan item as produced by the translation backend. `gif` is
`item.assets?.gif`. -/
structure PlanItem where
  type : ItemType
  token : String
  sign_name : Option String := none
  gif : Option String := none
deriving DecidableEq

instance : Inhabited PlanItem := ⟨⟨ItemType.text, "", none, none⟩⟩

/-- JS truthiness of an optional string: `undefined` and `""` are falsy. -/
def truthy : Option String → Bool
  | none => false
  | some s => decide (s ≠ "")

/-- Legacy wire shape of one hand frame (`hand_frames` entries). -/
structure HandFramePair where
  left : Option (List Point) := none
  right : Option (List Point) := none
deriving DecidableEq

/-- Body of a successful landmark fetch, carrying one of the three
historical shapes. -/
structure LandmarksData where
  pose_frames : Option (List PoseFrame) := none
  hand_frames : Option (List HandFramePair) := none
  frames : Option (List PoseFrame) := none
deriving DecidableEq

/-- JS test `x && Array.isArray(x) && x.length > 0` on an optional list. -/
def nonemptyList {α : Type} : Option (List α) → Bool
  | some (_ :: _) => true
  | _ => false

/-- Frame extraction of `playSingleSign`: prefer `pose_frames`, then the
legacy `hand_frames` (mapped to `left_hand`/`right_hand`), then `frames`;
otherwise no frames. -/
def extractFrames (data : Option LandmarksData) : Option (List PoseFrame) :=
  match data with
  | none => none
  | some d =>
    if nonemptyList d.pose_frames then d.pose_frames
    else if nonemptyList d.hand_frames then
      some ((d.hand_frames.getD []).map fun f =>
        { pose := none, left_hand := f.left, right_hand := f.right })
    else if nonemptyList d.frames then d.frames
    else none

/-- Observable action of a session (or of the environment): the React state
setters, the token bump `playbackIdRef.current++`, the renderer invocation
`avatar.playSequence(frames, fps)`, and a requested `setTimeout` sleep. -/
inductive Event where
  | setCurrentToken (v : Option String)
  | setCurrentGifUrl (v : Option String)
  | setIsPlaying (b : Bool)
  | bumpPlaybackId
  | renderSequence (frames : List PoseFrame) (fps : ℚ)
  | sleep (ms : Nat)
deriving DecidableEq

/-- An event that mutates the engine or the renderer (everything except a
sleep request). -/
def Event.isMutation : Event → Bool
  | Event.sleep _ => false
  | _ => true

/-- UI-facing engine state shared by all sessions of the hook. -/
structure EngineState where
  playbackId : Nat
  isPlaying : Bool
  currentToken : Option String := none
  currentGifUrl : Option String := none
deriving DecidableEq

/-- Effect of one event on the engine state (renderer calls and sleeps do
not touch it). -/
def applyEvent (s : EngineState) : Event → EngineState
  | Event.setCurrentToken v => { s with currentToken := v }
  | Event.setCurrentGifUrl v => { s with currentGifUrl := v }
  | Event.setIsPlaying b => { s with isPlaying := b }
  | Event.bumpPlaybackId => { s with playbackId := s.playbackId + 1 }
  | Event.renderSequence _ _ => s
  | Event.sleep _ => s

/-- What the environment does across one suspension of the session: `ext`
are engine mutations performed by other code (for instance a `stopPlayback`
call), `dt` is the wall-clock time that passes, and `res` is the fetch
result when the suspension is a landmark fetch. -/
structure EnvAct where
  ext : List Event := []
  dt : Nat := 0
  res : Option LandmarksData := none
deriving DecidableEq

/-- The synchronous mutations performed by `stopPlayback`. -/
def stopEvents : List Event :=
  [Event.bumpPlaybackId, Event.setCurrentToken none,
   Event.setCurrentGifUrl none, Event.setIsPlaying false]

/-- Interpreter state of a run: engine state, wall clock (ms), number of
suspensions consumed so far, remaining schedule, and the trace of events
emitted by the session itself, each tagged with the number of suspensions
that preceded its emission. -/
structure RunSt where
  eng : EngineState
  clock : Nat
  susp : Nat
  acts : List EnvAct
  trace : List (Nat × Event)

/-- Emit one event synchronously: apply it to the engine and append it to
the session trace. -/
def RunSt.emit (st : RunSt) (e : Event) : RunSt :=
  { st with eng := applyEvent st.eng e, trace := st.trace ++ [(st.susp, e)] }

/-- Cross one suspension point: the environment performs its actions and
time passes.  `none` when the schedule is exhausted (the run stays
suspended there). -/
def RunSt.suspend (st : RunSt) : Option (EnvAct × RunSt) :=
  match st.acts with
  | [] => none
  | a :: rest =>
    some (a,
      { st with
          eng := a.ext.foldl applyEvent st.eng
          clock := st.clock + a.dt
          susp := st.susp + 1
          acts := rest })

/-- Result of running a piece of the scheduler: `val = none` means the run
is still suspended (schedule or fuel exhausted), otherwise the returned
value. -/
structure RunRes (α : Type) where
  val : Option α
  fin : RunSt

/-- Sequencing of run fragments: a truncated run stays truncated, otherwise
the continuation receives the value and the state. -/
def RunRes.andThen {α β : Type} (r : RunRes α) (k : α → RunSt → RunRes β) :
    RunRes β :=
  match r with
  | ⟨none, st⟩ => ⟨none, st⟩
  | ⟨some v, st⟩ => k v st

/-- Cross one suspension point and continue: when the schedule is exhausted
the run is truncated at this suspension. -/
def RunSt.suspendThen {α : Type} (st : RunSt) (k : EnvAct → RunSt → RunRes α) :
    RunRes α :=
  match st.suspend with
  | none => ⟨none, st⟩
  | some (a, st2) => k a st2

/-- Skeleton-animation step of `playSingleSign`: when frames were obtained,
compute `fps = max(10, frames.length / 3)` and await
`avatar.playSequence(frames, fps)`; otherwise skip the animation entirely. -/
def animStep (frames : Option (List PoseFrame)) (st : RunSt) : RunRes Unit :=
  match frames with
  | some fs =>
    (st.emit (Event.renderSequence fs (max 10 ((fs.length : ℚ) / 3)))).suspendThen
      fun _ st2 => ⟨some (), st2⟩
  | none => ⟨some (), st⟩

/-- Dwell-budget step of `playSingleSign`: compute the elapsed time and
sleep the remaining part of the 3000 ms budget when positive. -/
def dwellStep (startTime : Nat) (st : RunSt) : RunRes Unit :=
  if st.clock - startTime < 3000 then
    (st.emit (Event.sleep (3000 - (st.clock - startTime)))).suspendThen
      fun _ st2 => ⟨some (), st2⟩
  else ⟨some (), st⟩

/-- Synchronous head of `playSingleSign` after the entry checks:
`setCurrentToken(item.token)` followed by `setCurrentGifUrl` when the item
carries a (truthy) GIF asset. -/
def setHead (item : PlanItem) (st : RunSt) : RunSt :=
  if truthy item.gif then
    (st.emit (Event.setCurrentToken (some item.token))).emit
      (Event.setCurrentGifUrl item.gif)
  else st.emit (Event.setCurrentToken (some item.token))

/-- Embedding of `playSingleSign(item, playbackId)`.  Token check at entry
only; sets `currentToken` and (when present) the GIF url synchronously;
awaits the fetch; plays the skeleton when frames were obtained; tops up the
3000 ms dwell (`startTime` is the clock when the head ran, which no emit
advances); clears the GIF url; returns `true`. -/
def playSingleSignRun (item : PlanItem) (playbackId : Nat) (st : RunSt) :
    RunRes Bool :=
  if playbackId ≠ st.eng.playbackId then ⟨some false, st⟩
  else if ¬ truthy item.sign_name then ⟨some false, st⟩
  else
    (setHead item st).suspendThen fun a st2 =>
      (animStep (extractFrames a.res) st2).andThen fun _ st3 =>
        (dwellStep (setHead item st).clock st3).andThen fun _ st4 =>
          ⟨some true, st4.emit (Event.setCurrentGifUrl none)⟩

/-- JS strict inequality `item.sign_name !== lastSignName` where the left
side is `string | undefined` and the right side is `string | null`: two
strings compare by value, and in every other case the values differ
(`undefined !== null` in particular). -/
def jsStrictNeq : Option String → Option String → Bool
  | some a, some b => decide (a ≠ b)
  | _, _ => true

/-- The collapse loop of `playSequence`: keep a sign item when its
`sign_name` differs (JS strict) from the memory, a dropped sign leaves the
memory unchanged, a non-sign item is always kept and resets the memory. -/
def uniquePlanAux : List PlanItem → Option String → List PlanItem
  | [], _ => []
  | item :: rest, lastSignName =>
    if item.type = ItemType.sign then
      if jsStrictNeq item.sign_name lastSignName then
        item :: uniquePlanAux rest item.sign_name
      else uniquePlanAux rest lastSignName
    else item :: uniquePlanAux rest none

/-- Collapsed plan (`uniquePlan` in the source). -/
def uniquePlan (plan : List PlanItem) : List PlanItem :=
  uniquePlanAux plan none

/-- Filter used to count signs:
`item.type === "sign" && item.sign_name` (string truthiness). -/
def isCountedSign (item : PlanItem) : Bool :=
  decide (item.type = ItemType.sign) && truthy item.sign_name

/-- Temporal mode chosen by `playSequence`. -/
inductive Mode where
  | loopSingle
  | sequential
deriving DecidableEq

/-- The single-sign loop of `playSequence`, with explicit fuel bounding the
number of iterations examined.  `val = some true` means the `while`
condition failed (the session was superseded) and control reaches the
cleanup; `val = none` means the run is still inside the loop when the fuel
or the schedule runs out. -/
def loopSingleRun (pid : Nat) (item : PlanItem) :
    Nat → RunSt → RunRes Bool
  | 0, st => ⟨none, st⟩
  | fuel + 1, st =>
    if pid = st.eng.playbackId then
      (playSingleSignRun item pid st).andThen fun _ st1 =>
        if pid = st1.eng.playbackId then
          (st1.emit (Event.sleep 300)).suspendThen fun _ st2 =>
            loopSingleRun pid item fuel st2
        else ⟨some true, st1⟩
    else ⟨some true, st⟩

/-- The sequential `for` loop of `playSequence`: a counted sign item plays
via `playSingleSign` and is followed by a 300 ms pause unless it is last;
any other item is skipped with a 500 ms pause. -/
def seqLoopRun (pid : Nat) : List PlanItem → RunSt → RunRes Unit
  | [], st => ⟨some (), st⟩
  | item :: rest, st =>
    if isCountedSign item then
      (playSingleSignRun item pid st).andThen fun _ st1 =>
        if rest.isEmpty then ⟨some (), st1⟩
        else
          (st1.emit (Event.sleep 300)).suspendThen fun _ st2 =>
            seqLoopRun pid rest st2
    else
      (st.emit (Event.sleep 500)).suspendThen fun _ st2 =>
        seqLoopRun pid rest st2

/-- Result of one `playSequence` call: whether the function returned
(`completed`), which temporal branch it took (`none` when the `isPlaying`
guard returned immediately), and the final interpreter state. -/
structure SessionRes where
  completed : Bool
  mode : Option Mode
  fin : RunSt

/-- Unconditional cleanup at the end of `playSequence`: when the loop body
returned, clear `currentToken` and `currentGifUrl` and set
`isPlaying = false`; a truncated (still running) body performs no cleanup
yet. -/
def cleanupAfter {α : Type} (m : Mode) (r : RunRes α) : SessionRes :=
  match r with
  | ⟨none, st⟩ => ⟨false, some m, st⟩
  | ⟨some _, st⟩ =>
    ⟨true, some m,
      ((st.emit (Event.setCurrentToken none)).emit
          (Event.setCurrentGifUrl none)).emit (Event.setIsPlaying false)⟩

/-- Engine state right after the synchronous prologue of `playSequence`
(`setIsPlaying(true)` followed by `playbackIdRef.current++`). -/
def startPrologue (st : RunSt) : RunSt :=
  (st.emit (Event.setIsPlaying true)).emit Event.bumpPlaybackId

/-- Embedding of `playSequence(plan)` (the `start` operation): the
`isPlaying` guard, `setIsPlaying(true)`, the token bump, the collapse, the
sign count, and the loop-single / sequential branches followed by the
unconditional cleanup. -/
def playSequenceRun (plan : List PlanItem) (fuel : Nat) (st : RunSt) :
    SessionRes :=
  if st.eng.isPlaying then ⟨true, none, st⟩
  else if ((uniquePlan plan).filter isCountedSign).length = 1 then
    cleanupAfter Mode.loopSingle
      (loopSingleRun (startPrologue st).eng.playbackId
        (((uniquePlan plan).filter isCountedSign).headD default) fuel
        (startPrologue st))
  else
    cleanupAfter Mode.sequential
      (seqLoopRun (startPrologue st).eng.playbackId (uniquePlan plan)
        (startPrologue st))

/-- Number of token bumps the environment performs in one suspension. -/
def extBumps (a : EnvAct) : Nat :=
  a.ext.countP (fun e => decide (e = Event.bumpPlaybackId))

/-- Number of token bumps the environment performs during the first `j`
suspensions of the schedule. -/
def bumpsBefore (acts : List EnvAct) (j : Nat) : Nat :=
  ((acts.take j).map extBumps).sum

/-- Formalisation of claim C1 as stated: if the environment increments the
session token during one of the first `j` suspensions (a newer start or a
stop), then every mutating event the session emits carries a suspension tag
below `j` - that is, the superseded session performs no further renderer or
UI mutation at any later suspension point. -/
def noEffectsAfterSupersession (plan : List PlanItem) (fuel : Nat)
    (st : RunSt) : Prop :=
  ∀ j, 0 < bumpsBefore st.acts j →
    ∀ p ∈ (playSequenceRun plan fuel st).fin.trace,
      p.2.isMutation = true → p.1 < j

/-- Formalisation of claim C2 as stated: a `start` call always begins a new
session - it takes one of the two playback branches and its first two
actions are `setIsPlaying(true)` and the token bump that supersedes any
session in flight. -/
def startAlwaysWins (plan : List PlanItem) (fuel : Nat) (st : RunSt) : Prop :=
  (playSequenceRun plan fuel st).mode.isSome = true ∧
  ((playSequenceRun plan fuel st).fin.trace.map Prod.snd).take 2 =
    [Event.setIsPlaying true, Event.bumpPlaybackId]

/-- Collapse step as worded by claim C4: walk the items in order; drop a
sign item exactly when its `sign_name` equals the `sign_name` of the
immediately preceding emitted sign item; keep every non-sign item and let
it reset the last-sign memory. -/
def specCollapse : List PlanItem → Option String → List PlanItem
  | [], _ => []
  | item :: rest, last =>
    if item.type = ItemType.sign then
      match item.sign_name, last with
      | some s, some l =>
        if s = l then specCollapse rest last
        else item :: specCollapse rest item.sign_name
      | _, _ => item :: specCollapse rest item.sign_name
    else item :: specCollapse rest none

/-- Events a session body may emit between its start and its cleanup:
everything except `setIsPlaying` and the token bump. -/
def sessionSafe : Event → Bool
  | Event.setIsPlaying _ => false
  | Event.bumpPlaybackId => false
  | _ => true

/-- Relation between interpreter states across a session fragment that only
emits `sessionSafe` events and crosses suspensions in which the environment
does nothing: token and `isPlaying` are preserved, the schedule shrinks to
a suffix, and the trace grows by safe events only. -/
def stepFrame (st st' : RunSt) : Prop :=
  st'.eng.playbackId = st.eng.playbackId ∧
  st'.eng.isPlaying = st.eng.isPlaying ∧
  st'.acts <:+ st.acts ∧
  ∃ t, st'.trace = st.trace ++ t ∧ ∀ p ∈ t, sessionSafe p.2 = true

/-- The session trace only ever grows: `st'` carries the trace of `st` as a
prefix.  Holds across every fragment of a session run, whatever the
environment does during suspensions. -/
def traceMono (st st' : RunSt) : Prop :=
  ∃ t, st'.trace = st.trace ++ t

/-! ## Concrete inputs used by counterexamples and witnesses -/

/-- Sign item named `n`, with token `n` and no GIF asset. -/
def exSign (n : String) : PlanItem := ⟨ItemType.sign, n, some n, none⟩

/-- A text (non-sign) plan item. -/
def exText : PlanItem := ⟨ItemType.text, "hello", none, none⟩

/-- Suspension during which the environment does nothing: no engine
mutation, no time passing, fetches resolve with `null`. -/
def idleAct : EnvAct := ⟨[], 0, none⟩

/-- Suspension during which `stopPlayback()` runs: the token is bumped and
the UI state cleared. -/
def stopAct : EnvAct := ⟨stopEvents, 0, none⟩

/-- Fresh engine right after mounting the hook. -/
def initEngine : EngineState := ⟨0, false, none, none⟩

/-- Fresh interpreter state over a given schedule. -/
def initRun (acts : List EnvAct) : RunSt := ⟨initEngine, 0, 0, acts, []⟩

/-- Two-sign plan used by the C1 counterexample. -/
def c1CexPlan : List PlanItem := [exSign "I", exSign "WANT"]

/-- Schedule for the C1 counterexample: `stopPlayback` runs while the fetch
for the first sign is in flight; afterwards the environment is idle. -/
def c1CexSt : RunSt := initRun [stopAct, idleAct, idleAct]

/-- Plan for the C2 counterexample. -/
def c2CexPlan : List PlanItem := [exSign "B"]

/-- Engine with a session already playing (the state a second `start` call
observes while the first one is mid-playback). -/
def c2CexSt : RunSt := ⟨⟨5, true, some "X", none⟩, 0, 0, [], []⟩

/-- Plan with one text item and one sign item, for the C3 counterexample. -/
def c3CexPlan : List PlanItem := [exText, exSign "A"]

/-- Ample idle schedule for the C3 counterexample: a sequential run of the
two-item plan would finish well within it. -/
def c3CexSt : RunSt := initRun (List.replicate 8 idleAct)

/-- The [I, WANT, WANT, APPLE] plan of claim C4. -/
def c4ExPlan : List PlanItem :=
  [exSign "I", exSign "WANT", exSign "WANT", exSign "APPLE"]

/-- Its expected collapse [I, WANT, APPLE]. -/
def c4ExCollapsed : List PlanItem := [exSign "I", exSign "WANT", exSign "APPLE"]

/-- Idle schedule for the C5 witness. -/
def c5WitSt : RunSt := initRun (List.replicate 4 idleAct)

/-- Interpreter state for the C9 witness: a playing engine whose fetch act
takes 50 ms and fails. -/
def c9WitSt : RunSt := ⟨⟨7, true, none, none⟩, 100, 0, [⟨[], 50, none⟩, idleAct], []⟩

/-- Schedule of the C9 sequence part: both fetches fail, nothing else
happens. -/
def c9SeqSt : RunSt := initRun (List.replicate 5 idleAct)

/-- Two-sign plan for the C9 sequence part. -/
def c9SeqPlan : List PlanItem := [exSign "I", exSign "WANT"]

/-- A landmark row at the absence sentinel. -/
def zeroRow : Point := [0, 0, 0]

/-- A 33-row pose payload whose landmarks are all the sentinel. -/
def blank33 : PoseFrame := { pose := some (List.replicate 33 zeroRow) }

/-- A well-shaped pose payload with one present landmark. -/
def ok33 : PoseFrame := { pose := some (List.replicate 32 zeroRow ++ [[1, 1, 0]]) }

/-- A well-shaped hand frame whose left hand has one present landmark. -/
def okHand : PoseFrame :=
  { left_hand := some (List.replicate 20 zeroRow ++ [[1, 1, 0]]) }

/-- A wrong-shaped hand frame (left hand of 20 rows carrying data). -/
def badHand : PoseFrame :=
  { left_hand := some (List.replicate 19 zeroRow ++ [[1, 1, 0]]) }

/-- Frame list of the C8 concrete part: 10 valid frames then 15 blank
frames. -/
def c8Frames : List PoseFrame :=
  List.replicate 10 ok33 ++ List.replicate 15 blank33

/-! ## Helper lemmas about the scheduler interpreter -/

lemma applyEvent_safe_playbackId (s : EngineState) (e : Event)
    (h : sessionSafe e = true) : (applyEvent s e).playbackId = s.playbackId := by
  cases e <;> simp_all [sessionSafe, applyEvent]

lemma applyEvent_safe_isPlaying (s : EngineState) (e : Event)
    (h : sessionSafe e = true) : (applyEvent s e).isPlaying = s.isPlaying := by
  cases e <;> simp_all [sessionSafe, applyEvent]

lemma stepFrame_refl (st : RunSt) : stepFrame st st :=
  ⟨rfl, rfl, List.suffix_refl _, [], by simp, by simp⟩

lemma stepFrame_trans {s1 s2 s3 : RunSt} (h1 : stepFrame s1 s2)
    (h2 : stepFrame s2 s3) : stepFrame s1 s3 := by
  obtain ⟨a1, b1, c1, t1, d1, e1⟩ := h1
  obtain ⟨a2, b2, c2, t2, d2, e2⟩ := h2
  refine ⟨a2.trans a1, b2.trans b1, c2.trans c1, t1 ++ t2, ?_, ?_⟩
  · rw [d2, d1, List.append_assoc]
  · intro p hp
    rcases List.mem_append.1 hp with h | h
    · exact e1 p h
    · exact e2 p h

lemma stepFrame_emit (st : RunSt) (e : Event) (he : sessionSafe e = true) :
    stepFrame st (st.emit e) :=
  ⟨applyEvent_safe_playbackId _ _ he, applyEvent_safe_isPlaying _ _ he,
   List.suffix_refl _, [(st.susp, e)], rfl, by simpa using he⟩

lemma suspend_eq {st : RunSt} {a : EnvAct} {rest : List EnvAct}
    (h : st.acts = a :: rest) :
    st.suspend = some (a,
      { st with
          eng := a.ext.foldl applyEvent st.eng
          clock := st.clock + a.dt
          susp := st.susp + 1
          acts := rest }) := by
  unfold RunSt.suspend
  rw [h]

lemma emit_acts (st : RunSt) (e : Event) : (st.emit e).acts = st.acts := rfl

lemma emit_clock (st : RunSt) (e : Event) : (st.emit e).clock = st.clock := rfl

lemma emit_susp (st : RunSt) (e : Event) : (st.emit e).susp = st.susp := rfl

lemma suspend_inv {st st' : RunSt} {a : EnvAct}
    (h : st.suspend = some (a, st')) :
    ∃ rest, st.acts = a :: rest ∧
      st' = { st with
          eng := a.ext.foldl applyEvent st.eng
          clock := st.clock + a.dt
          susp := st.susp + 1
          acts := rest } := by
  unfold RunSt.suspend at h
  split at h
  · exact absurd h (by simp)
  · next b rest heq =>
    simp only [Option.some.injEq, Prod.mk.injEq] at h
    obtain ⟨h1, h2⟩ := h
    subst h1
    exact ⟨rest, heq, h2.symm⟩

lemma suspend_mem {st st' : RunSt} {a : EnvAct}
    (h : st.suspend = some (a, st')) : a ∈ st.acts := by
  obtain ⟨rest, hacts, _⟩ := suspend_inv h
  rw [hacts]
  exact List.mem_cons_self a rest

lemma stepFrame_suspend {st st' : RunSt} {a : EnvAct}
    (h : st.suspend = some (a, st')) (ha : a.ext = []) : stepFrame st st' := by
  obtain ⟨rest, hacts, hst⟩ := suspend_inv h
  subst hst
  refine ⟨by simp [ha], by simp [ha], ?_, [], by simp, by simp⟩
  show rest <:+ st.acts
  rw [hacts]
  exact List.suffix_cons a rest

lemma hext_mono {l1 l2 : List EnvAct} (h : l1 <:+ l2)
    (hext : ∀ a ∈ l2, a.ext = []) : ∀ a ∈ l1, a.ext = [] :=
  fun a ha => hext a (h.subset ha)

lemma suspendThen_frame {α : Type} (st : RunSt) (k : EnvAct → RunSt → RunRes α)
    (hext : ∀ a ∈ st.acts, a.ext = [])
    (hk : ∀ a st2, st.suspend = some (a, st2) → stepFrame st2 (k a st2).fin) :
    stepFrame st (st.suspendThen k).fin := by
  unfold RunSt.suspendThen
  cases hs : st.suspend with
  | none => exact stepFrame_refl st
  | some pr =>
    obtain ⟨a, st2⟩ := pr
    exact stepFrame_trans
      (stepFrame_suspend hs (hext a (suspend_mem hs))) (hk a st2 hs)

lemma andThen_frame {α β : Type} (r : RunRes α) (k : α → RunSt → RunRes β)
    (hk : ∀ v, stepFrame r.fin (k v r.fin).fin) :
    stepFrame r.fin (r.andThen k).fin := by
  rcases r with ⟨v, st⟩
  cases v with
  | none => exact stepFrame_refl st
  | some v => exact hk v

lemma animStep_frame (frames : Option (List PoseFrame)) (st : RunSt)
    (hext : ∀ a ∈ st.acts, a.ext = []) :
    stepFrame st (animStep frames st).fin := by
  cases frames with
  | none => exact stepFrame_refl st
  | some fs =>
    unfold animStep
    have h1 := stepFrame_emit st
      (Event.renderSequence fs (max 10 ((fs.length : ℚ) / 3))) rfl
    refine stepFrame_trans h1 (suspendThen_frame _ _ ?_ ?_)
    · rw [emit_acts]; exact hext
    · intro a st2 hs
      exact stepFrame_refl st2

lemma dwellStep_frame (startTime : Nat) (st : RunSt)
    (hext : ∀ a ∈ st.acts, a.ext = []) :
    stepFrame st (dwellStep startTime st).fin := by
  unfold dwellStep
  split
  · have h1 := stepFrame_emit st (Event.sleep (3000 - (st.clock - startTime))) rfl
    refine stepFrame_trans h1 (suspendThen_frame _ _ ?_ ?_)
    · rw [emit_acts]; exact hext
    · intro a st2 hs
      exact stepFrame_refl st2
  · exact stepFrame_refl st

lemma setHead_frame (item : PlanItem) (st : RunSt) :
    stepFrame st (setHead item st) := by
  unfold setHead
  split
  · exact stepFrame_trans
      (stepFrame_emit st (Event.setCurrentToken (some item.token)) rfl)
      (stepFrame_emit _ (Event.setCurrentGifUrl item.gif) rfl)
  · exact stepFrame_emit st (Event.setCurrentToken (some item.token)) rfl

lemma setHead_acts (item : PlanItem) (st : RunSt) :
    (setHead item st).acts = st.acts := by
  unfold setHead
  split <;> rfl

lemma playSingleSignRun_frame (item : PlanItem) (pid : Nat) (st : RunSt)
    (hext : ∀ a ∈ st.acts, a.ext = []) :
    stepFrame st (playSingleSignRun item pid st).fin := by
  unfold playSingleSignRun
  split
  · exact stepFrame_refl st
  split
  · exact stepFrame_refl st
  have hH : stepFrame st (setHead item st) := setHead_frame item st
  have hextH : ∀ a ∈ (setHead item st).acts, a.ext = [] := by
    rw [setHead_acts]; exact hext
  refine stepFrame_trans hH (suspendThen_frame _ _ hextH ?_)
  intro a st2 hs
  have hsus := stepFrame_suspend hs (hextH a (suspend_mem hs))
  have hext2 : ∀ b ∈ st2.acts, b.ext = [] := hext_mono hsus.2.2.1 hextH
  have hA : stepFrame st2 (animStep (extractFrames a.res) st2).fin :=
    animStep_frame (extractFrames a.res) st2 hext2
  refine stepFrame_trans hA (andThen_frame _ _ ?_)
  intro v
  have hext3 := hext_mono hA.2.2.1 hext2
  have hD := dwellStep_frame (setHead item st).clock
    (animStep (extractFrames a.res) st2).fin hext3
  refine stepFrame_trans hD (andThen_frame _ _ ?_)
  intro v2
  exact stepFrame_emit _ (Event.setCurrentGifUrl none) rfl

lemma loopSingleRun_frame (pid : Nat) (item : PlanItem) (fuel : Nat) (st : RunSt)
    (hpid : pid = st.eng.playbackId) (hext : ∀ a ∈ st.acts, a.ext = []) :
    (loopSingleRun pid item fuel st).val = none ∧
    stepFrame st (loopSingleRun pid item fuel st).fin := by
  induction fuel generalizing st with
  | zero => exact ⟨rfl, stepFrame_refl st⟩
  | succ n ih =>
    unfold loopSingleRun
    rw [if_pos hpid]
    rcases hr : playSingleSignRun item pid st with ⟨v1, st1⟩
    have hf : stepFrame st st1 := by
      have h := playSingleSignRun_frame item pid st hext
      rw [hr] at h
      exact h
    have hext1 : ∀ b ∈ st1.acts, b.ext = [] := hext_mono hf.2.2.1 hext
    cases v1 with
    | none => exact ⟨rfl, hf⟩
    | some b =>
      simp only [RunRes.andThen]
      have hpid1 : pid = st1.eng.playbackId := by rw [hf.1]; exact hpid
      rw [if_pos hpid1]
      unfold RunSt.suspendThen
      cases hs : (st1.emit (Event.sleep 300)).suspend with
      | none =>
        exact ⟨rfl, stepFrame_trans hf
          (stepFrame_emit st1 (Event.sleep 300) rfl)⟩
      | some pr =>
        obtain ⟨a, st2⟩ := pr
        have hmem := suspend_mem hs
        rw [emit_acts] at hmem
        have hsus := stepFrame_suspend hs (hext1 a hmem)
        have hf2 : stepFrame st st2 :=
          stepFrame_trans hf
            (stepFrame_trans (stepFrame_emit st1 (Event.sleep 300) rfl) hsus)
        have hpid2 : pid = st2.eng.playbackId := by
          rw [hsus.1]; exact hpid1
        have hext2 : ∀ b ∈ st2.acts, b.ext = [] := by
          refine hext_mono hsus.2.2.1 ?_
          rw [emit_acts]; exact hext1
        obtain ⟨hv, hsf⟩ := ih st2 hpid2 hext2
        exact ⟨hv, stepFrame_trans hf2 hsf⟩

lemma traceMono_refl (st : RunSt) : traceMono st st := ⟨[], by simp⟩

lemma traceMono_trans {s1 s2 s3 : RunSt} (h1 : traceMono s1 s2)
    (h2 : traceMono s2 s3) : traceMono s1 s3 := by
  obtain ⟨t1, e1⟩ := h1
  obtain ⟨t2, e2⟩ := h2
  exact ⟨t1 ++ t2, by rw [e2, e1, List.append_assoc]⟩

lemma traceMono_emit (st : RunSt) (e : Event) : traceMono st (st.emit e) :=
  ⟨[(st.susp, e)], rfl⟩

lemma traceMono_suspend {st st2 : RunSt} {a : EnvAct}
    (hs : st.suspend = some (a, st2)) : traceMono st st2 := by
  obtain ⟨rest, hacts, hst⟩ := suspend_inv hs
  subst hst
  exact ⟨[], by simp⟩

lemma suspendThen_traceMono {α : Type} (st : RunSt)
    (k : EnvAct → RunSt → RunRes α)
    (hk : ∀ a st2, st.suspend = some (a, st2) → traceMono st2 (k a st2).fin) :
    traceMono st (st.suspendThen k).fin := by
  unfold RunSt.suspendThen
  cases hs : st.suspend with
  | none => exact traceMono_refl st
  | some pr =>
    obtain ⟨a, st2⟩ := pr
    exact traceMono_trans (traceMono_suspend hs) (hk a st2 hs)

lemma andThen_traceMono {α β : Type} (r : RunRes α) (k : α → RunSt → RunRes β)
    (hk : ∀ v, traceMono r.fin (k v r.fin).fin) :
    traceMono r.fin (r.andThen k).fin := by
  rcases r with ⟨v, st⟩
  cases v with
  | none => exact traceMono_refl st
  | some v => exact hk v

lemma animStep_traceMono (frames : Option (List PoseFrame)) (st : RunSt) :
    traceMono st (animStep frames st).fin := by
  cases frames with
  | none => exact traceMono_refl st
  | some fs =>
    unfold animStep
    refine traceMono_trans (traceMono_emit st _) (suspendThen_traceMono _ _ ?_)
    intro a st2 hs
    exact traceMono_refl st2

lemma dwellStep_traceMono (startTime : Nat) (st : RunSt) :
    traceMono st (dwellStep startTime st).fin := by
  unfold dwellStep
  split
  · refine traceMono_trans (traceMono_emit st _) (suspendThen_traceMono _ _ ?_)
    intro a st2 hs
    exact traceMono_refl st2
  · exact traceMono_refl st

lemma setHead_traceMono (item : PlanItem) (st : RunSt) :
    traceMono st (setHead item st) := by
  unfold setHead
  split
  · exact traceMono_trans (traceMono_emit st _) (traceMono_emit _ _)
  · exact traceMono_emit st _

lemma playSingleSignRun_traceMono (item : PlanItem) (pid : Nat) (st : RunSt) :
    traceMono st (playSingleSignRun item pid st).fin := by
  unfold playSingleSignRun
  split
  · exact traceMono_refl st
  split
  · exact traceMono_refl st
  refine traceMono_trans (setHead_traceMono item st)
    (suspendThen_traceMono _ _ ?_)
  intro a st2 hs
  refine traceMono_trans (animStep_traceMono (extractFrames a.res) st2)
    (andThen_traceMono _ _ ?_)
  intro v
  refine traceMono_trans (dwellStep_traceMono (setHead item st).clock _)
    (andThen_traceMono _ _ ?_)
  intro v2
  exact traceMono_emit _ _

lemma loopSingleRun_traceMono (pid : Nat) (item : PlanItem) (fuel : Nat)
    (st : RunSt) : traceMono st (loopSingleRun pid item fuel st).fin := by
  induction fuel generalizing st with
  | zero => exact traceMono_refl st
  | succ n ih =>
    unfold loopSingleRun
    split
    · rcases hr : playSingleSignRun item pid st with ⟨v1, st1⟩
      have hm : traceMono st st1 := by
        have h := playSingleSignRun_traceMono item pid st
        rw [hr] at h
        exact h
      cases v1 with
      | none => exact hm
      | some b =>
        simp only [RunRes.andThen]
        split
        · unfold RunSt.suspendThen
          cases hs : (st1.emit (Event.sleep 300)).suspend with
          | none => exact traceMono_trans hm (traceMono_emit st1 _)
          | some pr =>
            obtain ⟨a, st2⟩ := pr
            exact traceMono_trans hm
              (traceMono_trans (traceMono_emit st1 _)
                (traceMono_trans (traceMono_suspend hs) (ih st2)))
        · exact hm
    · exact traceMono_refl st

lemma seqLoopRun_traceMono (pid : Nat) (plan : List PlanItem) (st : RunSt) :
    traceMono st (seqLoopRun pid plan st).fin := by
  induction plan generalizing st with
  | nil => exact traceMono_refl st
  | cons item rest ih =>
    unfold seqLoopRun
    split
    · rcases hr : playSingleSignRun item pid st with ⟨v1, st1⟩
      have hm : traceMono st st1 := by
        have h := playSingleSignRun_traceMono item pid st
        rw [hr] at h
        exact h
      cases v1 with
      | none => exact hm
      | some b =>
        simp only [RunRes.andThen]
        split
        · exact hm
        · unfold RunSt.suspendThen
          cases hs : (st1.emit (Event.sleep 300)).suspend with
          | none => exact traceMono_trans hm (traceMono_emit st1 _)
          | some pr =>
            obtain ⟨a, st2⟩ := pr
            exact traceMono_trans hm
              (traceMono_trans (traceMono_emit st1 _)
                (traceMono_trans (traceMono_suspend hs) (ih st2)))
    · unfold RunSt.suspendThen
      cases hs : (st.emit (Event.sleep 500)).suspend with
      | none => exact traceMono_emit st _
      | some pr =>
        obtain ⟨a, st2⟩ := pr
        exact traceMono_trans (traceMono_emit st _)
          (traceMono_trans (traceMono_suspend hs) (ih st2))

lemma cleanupAfter_mode {α : Type} (m : Mode) (r : RunRes α) :
    (cleanupAfter m r).mode = some m := by
  rcases r with ⟨v, st⟩
  cases v <;> rfl

lemma cleanupAfter_traceMono {α : Type} (m : Mode) (r : RunRes α) :
    traceMono r.fin (cleanupAfter m r).fin := by
  rcases r with ⟨v, st⟩
  cases v with
  | none => exact traceMono_refl st
  | some v =>
    exact traceMono_trans (traceMono_emit st _)
      (traceMono_trans (traceMono_emit _ _) (traceMono_emit _ _))

lemma startPrologue_trace (st : RunSt) :
    (startPrologue st).trace = st.trace ++
      [(st.susp, Event.setIsPlaying true), (st.susp, Event.bumpPlaybackId)] := by
  unfold startPrologue RunSt.emit
  simp

lemma uniquePlanAux_eq_spec (plan : List PlanItem) :
    ∀ last, uniquePlanAux plan last = specCollapse plan last := by
  induction plan with
  | nil => intro last; rfl
  | cons item rest ih =>
    intro last
    unfold uniquePlanAux specCollapse
    by_cases h : item.type = ItemType.sign
    · rw [if_pos h, if_pos h]
      cases hs : item.sign_name with
      | none =>
        cases last with
        | none => simp [jsStrictNeq, ih, hs]
        | some l => simp [jsStrictNeq, ih, hs]
      | some s =>
        cases last with
        | none => simp [jsStrictNeq, ih, hs]
        | some l =>
          by_cases he : s = l
          · subst he
            simp [jsStrictNeq, ih, hs]
          · simp [jsStrictNeq, he, ih, hs]
    · rw [if_neg h, if_neg h, ih]

lemma uniquePlanAux_sublist (plan : List PlanItem) :
    ∀ last, (uniquePlanAux plan last).Sublist plan := by
  induction plan with
  | nil => intro last; simp [uniquePlanAux]
  | cons item rest ih =>
    intro last
    unfold uniquePlanAux
    by_cases h : item.type = ItemType.sign
    · rw [if_pos h]
      by_cases hj : jsStrictNeq item.sign_name last = true
      · rw [if_pos hj]
        exact (ih item.sign_name).cons₂ item
      · rw [if_neg hj]
        exact (ih last).cons item
    · rw [if_neg h]
      exact (ih none).cons₂ item

/-! ## Claim theorems -/

/-- C4: the collapse step of `playSequence` emits items in order (the
collapsed plan is a sublist of the plan), coincides with the collapse the
claim describes (drop a sign item exactly when its `sign_name` equals the
`sign_name` of the immediately preceding emitted sign item; non-sign items
are always kept and reset the last-sign memory), and collapses the plan
[I, WANT, WANT, APPLE] to the 3 units [I, WANT, APPLE]. -/
theorem c4_collapse_correct :
    (∀ plan, uniquePlan plan = specCollapse plan none) ∧
    (∀ plan, (uniquePlan plan).Sublist plan) ∧
    uniquePlan c4ExPlan = c4ExCollapsed :=
  ⟨fun plan => uniquePlanAux_eq_spec plan none,
   fun plan => uniquePlanAux_sublist plan none,
   by decide⟩

/-- C3 counterexample: on the plan [text, sign A] the scheduler takes the
loop-single branch even though the collapsed plan contains a non-sign item,
does not terminate within a schedule ample for one sequential pass, and
plays the sign repeatedly - the claim instead requires sequential mode,
a single iteration, and termination for this plan. -/
theorem c3_counterexample :
    (playSequenceRun c3CexPlan 3 c3CexSt).mode = some Mode.loopSingle ∧
    c3CexPlan.any (fun it => decide (it.type ≠ ItemType.sign)) = true ∧
    (playSequenceRun c3CexPlan 3 c3CexSt).completed = false ∧
    2 ≤ ((playSequenceRun c3CexPlan 3 c3CexSt).fin.trace.map Prod.snd).count
        (Event.setCurrentToken (some "A")) := by
  decide

/-- C3 (amended): when `start` is not blocked by the `isPlaying` guard, the
scheduler enters loop-single mode exactly when the collapsed plan contains
exactly one sign item bearing a truthy `sign_name`, regardless of how many
non-sign items accompany it; otherwise it runs sequentially. -/
theorem c3_mode_selection (plan : List PlanItem) (fuel : Nat) (st : RunSt)
    (h : st.eng.isPlaying = false) :
    (playSequenceRun plan fuel st).mode = some Mode.loopSingle ↔
      ((uniquePlan plan).filter isCountedSign).length = 1 := by
  unfold playSequenceRun
  rw [if_neg (by simp [h])]
  by_cases h1 : ((uniquePlan plan).filter isCountedSign).length = 1
  · rw [if_pos h1, cleanupAfter_mode]
    simp [h1]
  · rw [if_neg h1, cleanupAfter_mode]
    simp [h1]

/-- C3 witness for the amended claim: a one-sign plan with `isPlaying`
false takes the loop-single branch. -/
theorem c3_mode_selection_witness :
    (playSequenceRun [exSign "A"] 1 c5WitSt).mode = some Mode.loopSingle ↔
      ((uniquePlan [exSign "A"]).filter isCountedSign).length = 1 :=
  c3_mode_selection [exSign "A"] 1 c5WitSt (by decide)

/-- C2 counterexample: a `start` call issued while `isPlaying` is true is a
no-op - it takes neither playback branch and emits nothing, so the newly
supplied plan does not become the active session, contradicting the claim
that the most recent `start` always wins. -/
theorem c2_counterexample : ¬ startAlwaysWins c2CexPlan 1 c2CexSt :=
  fun hwin => absurd hwin.1 (by decide)

/-- C2 (amended): a `start` call wins only when no session is playing at
the moment of the call: it then takes a playback branch, its first two
actions are `setIsPlaying(true)` and the token bump, and the new session
token exceeds every previously issued token by one, superseding any
session in flight.  While `isPlaying` is true, `start` is a no-op. -/
theorem c2_start_wins_when_idle (plan : List PlanItem) (fuel : Nat)
    (st : RunSt) (h : st.eng.isPlaying = false) (h0 : st.trace = []) :
    (playSequenceRun plan fuel st).mode.isSome = true ∧
    ((playSequenceRun plan fuel st).fin.trace.map Prod.snd).take 2 =
      [Event.setIsPlaying true, Event.bumpPlaybackId] ∧
    (startPrologue st).eng.playbackId = st.eng.playbackId + 1 := by
  have hguard : ¬ (st.eng.isPlaying = true) := by simp [h]
  have hmode : (playSequenceRun plan fuel st).mode.isSome = true := by
    unfold playSequenceRun
    rw [if_neg hguard]
    split
    · rw [cleanupAfter_mode]; rfl
    · rw [cleanupAfter_mode]; rfl
  have hmono : traceMono (startPrologue st) (playSequenceRun plan fuel st).fin := by
    unfold playSequenceRun
    rw [if_neg hguard]
    split
    · exact traceMono_trans (loopSingleRun_traceMono _ _ _ _)
        (cleanupAfter_traceMono _ _)
    · exact traceMono_trans (seqLoopRun_traceMono _ _ _)
        (cleanupAfter_traceMono _ _)
  obtain ⟨t, ht⟩ := hmono
  refine ⟨hmode, ?_, rfl⟩
  rw [ht, startPrologue_trace, h0]
  simp

/-- C2 witness for the amended claim at a concrete idle engine. -/
theorem c2_start_wins_witness :
    (playSequenceRun c2CexPlan 1 (initRun [idleAct])).mode.isSome = true ∧
    ((playSequenceRun c2CexPlan 1 (initRun [idleAct])).fin.trace.map
        Prod.snd).take 2 = [Event.setIsPlaying true, Event.bumpPlaybackId] ∧
    (startPrologue (initRun [idleAct])).eng.playbackId =
      (initRun [idleAct]).eng.playbackId + 1 :=
  c2_start_wins_when_idle c2CexPlan 1 (initRun [idleAct]) (by decide) rfl

/-- C1 counterexample: run the two-sign plan [I, WANT] while `stopPlayback`
bumps the token during the first fetch (suspension 1).  The superseded
session still emits mutating events tagged with suspension indices at or
beyond 1 - it clears `currentGifUrl` after the dwell and runs the final
cleanup - so the claimed property fails at this input. -/
theorem c1_counterexample : ¬ noEffectsAfterSupersession c1CexPlan 1 c1CexSt := by
  intro hcl
  have h2 := hcl 1 (by decide) (2, Event.setCurrentGifUrl none)
    (by decide) (by decide)
  exact absurd h2 (by decide)

/-- C1 (amended): the session token is checked only on entry to
`playSingleSign`: a `playSingleSign` invoked when the captured token no
longer matches the engine token performs no side effects whatsoever (state,
trace, clock and schedule all unchanged) and returns `false`.  An in-flight
`playSingleSign`, by contrast, runs to completion after supersession, and
the finishing session clears the UI state unconditionally. -/
theorem c1_superseded_item_noop (item : PlanItem) (pid : Nat) (st : RunSt)
    (h : pid ≠ st.eng.playbackId) :
    playSingleSignRun item pid st = ⟨some false, st⟩ := by
  unfold playSingleSignRun
  rw [if_pos h]

/-- C1 witness for the amended claim. -/
theorem c1_superseded_item_noop_witness :
    playSingleSignRun (exSign "I") 0 c2CexSt = ⟨some false, c2CexSt⟩ :=
  c1_superseded_item_noop (exSign "I") 0 c2CexSt (by decide)

/-- C5: for every plan whose collapsed form has exactly one counted sign
item, a `start` from an idle engine enters the single-sign loop and, as
long as neither `stop()` nor a newer `start()` bumps the token (the
schedule performs no engine mutation), the session never returns however
much fuel and schedule it is given, `isPlaying` stays true, and no event of
the session sets `isPlaying` to false. -/
theorem c5_loop_single_never_stops (plan : List PlanItem) (fuel : Nat)
    (st : RunSt) (hplay : st.eng.isPlaying = false)
    (hsig : ((uniquePlan plan).filter isCountedSign).length = 1)
    (hext : ∀ a ∈ st.acts, a.ext = []) (h0 : st.trace = []) :
    (playSequenceRun plan fuel st).completed = false ∧
    (playSequenceRun plan fuel st).fin.eng.isPlaying = true ∧
    ∀ p ∈ (playSequenceRun plan fuel st).fin.trace,
      p.2 ≠ Event.setIsPlaying false := by
  have hguard : ¬ (st.eng.isPlaying = true) := by simp [hplay]
  have hextP : ∀ a ∈ (startPrologue st).acts, a.ext = [] := hext
  obtain ⟨hval, hsf⟩ := loopSingleRun_frame (startPrologue st).eng.playbackId
    (((uniquePlan plan).filter isCountedSign).headD default) fuel
    (startPrologue st) rfl hextP
  unfold playSequenceRun
  rw [if_neg hguard, if_pos hsig]
  rcases hr : loopSingleRun (startPrologue st).eng.playbackId
      (((uniquePlan plan).filter isCountedSign).headD default) fuel
      (startPrologue st) with ⟨v, stf⟩
  rw [hr] at hval hsf
  cases v with
  | some b => exact absurd hval (by simp)
  | none =>
    refine ⟨rfl, ?_, ?_⟩
    · show stf.eng.isPlaying = true
      rw [hsf.2.1]
      rfl
    · show ∀ p ∈ stf.trace, p.2 ≠ Event.setIsPlaying false
      obtain ⟨t, htr, hsafe⟩ := hsf.2.2.2
      intro p hp
      rw [htr, startPrologue_trace, h0] at hp
      simp only [List.nil_append, List.mem_append, List.mem_cons,
        List.mem_singleton] at hp
      rcases hp with (hp | hp | hp) | hp
      · rw [hp]; simp
      · rw [hp]; simp
      · simp at hp
      · have hsp := hsafe p hp
        intro hcontra
        rw [hcontra] at hsp
        simp [sessionSafe] at hsp

/-- C5 witness: the one-sign plan [A] from an idle engine with an idle
four-suspension schedule. -/
theorem c5_loop_single_witness :
    (playSequenceRun [exSign "A"] 2 c5WitSt).completed = false ∧
    (playSequenceRun [exSign "A"] 2 c5WitSt).fin.eng.isPlaying = true ∧
    ∀ p ∈ (playSequenceRun [exSign "A"] 2 c5WitSt).fin.trace,
      p.2 ≠ Event.setIsPlaying false :=
  c5_loop_single_never_stops [exSign "A"] 2 c5WitSt rfl (by decide)
    (by decide) rfl

lemma setHead_clock (item : PlanItem) (st : RunSt) :
    (setHead item st).clock = st.clock := by
  unfold setHead
  split <;> rfl

lemma setHead_susp (item : PlanItem) (st : RunSt) :
    (setHead item st).susp = st.susp := by
  unfold setHead
  split <;> rfl

lemma setHead_trace (item : PlanItem) (st : RunSt) :
    (setHead item st).trace = st.trace ++
      (if truthy item.gif then
        [(st.susp, Event.setCurrentToken (some item.token)),
         (st.susp, Event.setCurrentGifUrl item.gif)]
      else [(st.susp, Event.setCurrentToken (some item.token))]) := by
  unfold setHead RunSt.emit
  split <;> simp

lemma suspendThen_cons {α : Type} (st : RunSt) (k : EnvAct → RunSt → RunRes α)
    (a : EnvAct) (rest : List EnvAct) (hacts : st.acts = a :: rest) :
    st.suspendThen k = k a
      { st with
          eng := a.ext.foldl applyEvent st.eng
          clock := st.clock + a.dt
          susp := st.susp + 1
          acts := rest } := by
  unfold RunSt.suspendThen
  rw [suspend_eq hacts]

lemma playSingleSignRun_fetchFail (item : PlanItem) (pid : Nat) (st : RunSt)
    (a b : EnvAct) (rest : List EnvAct)
    (hpid : pid = st.eng.playbackId) (hname : truthy item.sign_name = true)
    (hacts : st.acts = a :: b :: rest) (hres : extractFrames a.res = none) :
    ∃ st4 : RunSt,
      playSingleSignRun item pid st =
        ⟨some true, st4.emit (Event.setCurrentGifUrl none)⟩ ∧
      st4.trace = (setHead item st).trace ++
        (if a.dt < 3000 then [(st.susp + 1, Event.sleep (3000 - a.dt))]
         else []) := by
  have hactsH : (setHead item st).acts = a :: (b :: rest) := by
    rw [setHead_acts, hacts]
  set st2 : RunSt :=
    { setHead item st with
        eng := a.ext.foldl applyEvent (setHead item st).eng
        clock := (setHead item st).clock + a.dt
        susp := (setHead item st).susp + 1
        acts := b :: rest } with hst2def
  have e2 : playSingleSignRun item pid st =
      (dwellStep (setHead item st).clock st2).andThen (fun _ st4 =>
        ⟨some true, st4.emit (Event.setCurrentGifUrl none)⟩) := by
    unfold playSingleSignRun
    rw [if_neg (by simp [hpid]), if_neg (by simp [hname]),
      suspendThen_cons _ _ a (b :: rest) hactsH, hres]
    rfl
  have hst2trace : st2.trace = (setHead item st).trace := rfl
  have hst2susp : st2.susp = st.susp + 1 := by
    rw [hst2def]
    show (setHead item st).susp + 1 = st.susp + 1
    rw [setHead_susp]
  have harith : st2.clock - (setHead item st).clock = a.dt := by
    rw [hst2def]
    show (setHead item st).clock + a.dt - (setHead item st).clock = a.dt
    omega
  by_cases hdt : a.dt < 3000
  · have e3 : playSingleSignRun item pid st =
        ⟨some true,
          ({ st2.emit (Event.sleep (3000 - a.dt)) with
              eng := b.ext.foldl applyEvent
                (st2.emit (Event.sleep (3000 - a.dt))).eng
              clock := (st2.emit (Event.sleep (3000 - a.dt))).clock + b.dt
              susp := (st2.emit (Event.sleep (3000 - a.dt))).susp + 1
              acts := rest } : RunSt).emit (Event.setCurrentGifUrl none)⟩ := by
      rw [e2]
      unfold dwellStep
      rw [harith, if_pos hdt,
        suspendThen_cons _ _ b rest (by rw [emit_acts])]
      rfl
    refine ⟨_, e3, ?_⟩
    show (st2.emit (Event.sleep (3000 - a.dt))).trace = _
    unfold RunSt.emit
    simp only [hst2trace, hst2susp, if_pos hdt]
    rw [setHead_susp]
  · have e3 : playSingleSignRun item pid st =
        ⟨some true, st2.emit (Event.setCurrentGifUrl none)⟩ := by
      rw [e2]
      unfold dwellStep
      rw [harith, if_neg hdt]
      rfl
    refine ⟨_, e3, ?_⟩
    rw [hst2trace]
    simp [hdt]

/-- C9: a landmark fetch failure (or empty result) never aborts the
sequence.  General part: whenever `playSingleSign` passes its entry checks
and the fetch yields no frames, it returns `true` to the scheduler, invokes
the renderer on nothing (no `renderSequence` event ever appears), and still
occupies the dwell budget - it requests a sleep of exactly
`3000 - elapsed` ms when `elapsed < 3000` and requests no sleep otherwise,
i.e. it sleeps `max(0, dwell - elapsed)`.  Concrete part: a two-sign
sequential run whose first fetch fails completes and still plays the
second item (its `setCurrentToken` appears). -/
theorem c9_fetch_failure_absorbed :
    (∀ (item : PlanItem) (pid : Nat) (st : RunSt) (a b : EnvAct)
        (rest : List EnvAct),
      pid = st.eng.playbackId → truthy item.sign_name = true →
      st.acts = a :: b :: rest → extractFrames a.res = none →
      st.trace = [] →
      (playSingleSignRun item pid st).val = some true ∧
      (∀ p ∈ (playSingleSignRun item pid st).fin.trace, ∀ fs q,
        p.2 ≠ Event.renderSequence fs q) ∧
      (a.dt < 3000 →
        Event.sleep (3000 - a.dt) ∈
          (playSingleSignRun item pid st).fin.trace.map Prod.snd) ∧
      (¬ a.dt < 3000 → ∀ ms,
        Event.sleep ms ∉
          (playSingleSignRun item pid st).fin.trace.map Prod.snd)) ∧
    ((playSequenceRun c9SeqPlan 1 c9SeqSt).completed = true ∧
      Event.setCurrentToken (some "WANT") ∈
        (playSequenceRun c9SeqPlan 1 c9SeqSt).fin.trace.map Prod.snd) := by
  constructor
  · intro item pid st a b rest hpid hname hacts hres h0
    obtain ⟨st4, he, htr⟩ :=
      playSingleSignRun_fetchFail item pid st a b rest hpid hname hacts hres
    have hval : (playSingleSignRun item pid st).val = some true := by rw [he]
    have hfin : (playSingleSignRun item pid st).fin =
        st4.emit (Event.setCurrentGifUrl none) := by rw [he]
    have htr2 : (playSingleSignRun item pid st).fin.trace =
        ((if truthy item.gif then
            [(st.susp, Event.setCurrentToken (some item.token)),
             (st.susp, Event.setCurrentGifUrl item.gif)]
          else [(st.susp, Event.setCurrentToken (some item.token))]) ++
          (if a.dt < 3000 then [(st.susp + 1, Event.sleep (3000 - a.dt))]
           else [])) ++ [(st4.susp, Event.setCurrentGifUrl none)] := by
      rw [hfin]
      show st4.trace ++ _ = _
      rw [htr, setHead_trace, h0]
      simp
    refine ⟨hval, ?_, ?_, ?_⟩
    · intro p hp fs q hcontra
      rw [htr2] at hp
      have hmem := List.mem_map_of_mem Prod.snd hp
      rw [hcontra] at hmem
      revert hmem
      split_ifs <;> simp
    · intro hdt
      rw [htr2, if_pos hdt]
      split_ifs <;> simp
    · intro hdt ms hmem
      rw [htr2, if_neg hdt] at hmem
      revert hmem
      split_ifs <;> simp
  · constructor
    · decide
    · decide

/-! ## Helper lemmas about the renderer -/

lemma updateHand_valid (pts : List Point) (j : Fin 21 → Joint) (off : ℚ) :
    (updateHand pts j off).2.2 =
      (decide (pts.length = 21) && pts.any landmarkPresent) := by
  unfold updateHand
  by_cases h1 : pts.length ≠ 21
  · rw [if_pos h1]
    simp [h1]
  · rw [if_neg h1]
    have h1x : pts.length = 21 := not_not.mp h1
    by_cases h2 : pts.any landmarkPresent = true
    · rw [if_neg (by simp [h2])]
      simp [h1x, h2]
    · rw [if_pos (by simp [h2])]
      simp [h2]

lemma updateHand_invalid_hidden (pts : List Point) (j : Fin 21 → Joint)
    (off : ℚ) (h : (decide (pts.length = 21) && pts.any landmarkPresent) = false) :
    (∀ i, ((updateHand pts j off).1 i).visible = false) ∧
    (∀ k, (updateHand pts j off).2.1 k = false) := by
  unfold updateHand
  by_cases h1 : pts.length ≠ 21
  · rw [if_pos h1]
    exact ⟨fun i => rfl, fun k => rfl⟩
  · rw [if_neg h1]
    have h1x : pts.length = 21 := not_not.mp h1
    have h2 : ¬ pts.any landmarkPresent = true := by
      simp [h1x] at h
      simpa using h
    rw [if_pos h2]
    exact ⟨fun i => rfl, fun k => rfl⟩

lemma handSide_valid (points : Option (List Point)) (j : Fin 21 → Joint)
    (off : ℚ) : (handSide points j off).2.2 = checkHand points := by
  cases points with
  | none => rfl
  | some pts => exact updateHand_valid pts j off

lemma handSide_invalid_hidden (points : Option (List Point))
    (j : Fin 21 → Joint) (off : ℚ) (h : checkHand points = false) :
    (∀ i, ((handSide points j off).1 i).visible = false) ∧
    (∀ k, (handSide points j off).2.1 k = false) := by
  cases points with
  | none => exact ⟨fun i => rfl, fun k => rfl⟩
  | some pts =>
    exact updateHand_invalid_hidden pts j off (by simpa [checkHand] using h)

lemma updateFrame_some (s : AvState) (f : PoseFrame) :
    updateFrame s (some f) =
      if f.left_hand.isSome || f.right_hand.isSome then handBranch s f
      else poseBranch s f.pose := rfl

lemma poseBranch_none (s : AvState) :
    poseBranch s none = (hideAllPose (hideAllHands s), false) := rfl

lemma poseBranch_some (s : AvState) (points : List Point) :
    poseBranch s (some points) =
      if points.length ≠ 33 then (hideAllPose (hideAllHands s), false)
      else if ¬ points.any landmarkPresent then
        (hideAllPose (hideAllHands s), false)
      else
        ({ hideAllHands s with
            joints := poseJoints points (hideAllHands s)
            bones := poseBones (poseJoints points (hideAllHands s)) },
         true) := rfl

lemma checkPose_some (points : List Point) :
    checkPose (some points) =
      (decide (points.length = 33) && points.any landmarkPresent) := rfl

lemma updateFrame_snd (s : AvState) (f : PoseFrame) :
    (updateFrame s (some f)).2 = checkFrameHasData f := by
  rw [updateFrame_some]
  unfold checkFrameHasData
  by_cases hc : (f.left_hand.isSome || f.right_hand.isSome) = true
  · rw [if_pos hc, if_pos hc]
    unfold handBranch
    simp only [handSide_valid]
  · rw [if_neg hc, if_neg hc]
    cases hp : f.pose with
    | none => rfl
    | some pts =>
      rw [poseBranch_some, checkPose_some]
      by_cases h33 : pts.length ≠ 33
      · rw [if_pos h33]
        simp [h33]
      · rw [if_neg h33]
        have h33x : pts.length = 33 := not_not.mp h33
        by_cases hany : pts.any landmarkPresent = true
        · rw [if_neg (by simp [hany])]
          simp [h33x, hany]
        · rw [if_pos (by simp [hany])]
          simp [hany]

lemma updateFrame_hand_poseHidden (s : AvState) (f : PoseFrame)
    (hc : (f.left_hand.isSome || f.right_hand.isSome) = true) :
    poseAllHidden (updateFrame s (some f)).1 := by
  rw [updateFrame_some, if_pos hc]
  exact ⟨fun i => rfl, fun k => rfl⟩

lemma updateFrame_pose_handsHidden (s : AvState) (f : PoseFrame)
    (hc : (f.left_hand.isSome || f.right_hand.isSome) = false) :
    handsAllHidden (updateFrame s (some f)).1 := by
  rw [updateFrame_some, if_neg (by simp [hc])]
  cases hp : f.pose with
  | none => exact ⟨fun i => rfl, fun i => rfl, fun k => rfl, fun k => rfl⟩
  | some pts =>
    rw [poseBranch_some]
    by_cases h33 : pts.length ≠ 33
    · rw [if_pos h33]
      exact ⟨fun i => rfl, fun i => rfl, fun k => rfl, fun k => rfl⟩
    · rw [if_neg h33]
      by_cases hany : pts.any landmarkPresent = true
      · rw [if_neg (by simp [hany])]
        exact ⟨fun i => rfl, fun i => rfl, fun k => rfl, fun k => rfl⟩
      · rw [if_pos (by simp [hany])]
        exact ⟨fun i => rfl, fun i => rfl, fun k => rfl, fun k => rfl⟩

lemma updateFrame_invalid_hidden (s : AvState) (f : PoseFrame)
    (h : checkFrameHasData f = false) :
    allHidden (updateFrame s (some f)).1 := by
  rw [updateFrame_some]
  by_cases hc : (f.left_hand.isSome || f.right_hand.isSome) = true
  · rw [if_pos hc]
    unfold checkFrameHasData at h
    rw [if_pos hc] at h
    simp only [Bool.or_eq_false_iff] at h
    unfold handBranch
    obtain ⟨hl, hlb⟩ := handSide_invalid_hidden f.left_hand
      (hideAllPose s).leftHandJoints (-(1/2)) h.1
    obtain ⟨hr, hrb⟩ := handSide_invalid_hidden f.right_hand
      (hideAllPose s).rightHandJoints (1/2) h.2
    exact ⟨fun i => rfl, fun k => rfl, hl, hr, hlb, hrb⟩
  · rw [if_neg hc]
    unfold checkFrameHasData at h
    rw [if_neg hc] at h
    cases hp : f.pose with
    | none =>
      exact ⟨fun i => rfl, fun k => rfl, fun i => rfl, fun i => rfl,
        fun k => rfl, fun k => rfl⟩
    | some pts =>
      rw [hp, checkPose_some] at h
      rw [poseBranch_some]
      by_cases h33 : pts.length ≠ 33
      · rw [if_pos h33]
        exact ⟨fun i => rfl, fun k => rfl, fun i => rfl, fun i => rfl,
          fun k => rfl, fun k => rfl⟩
      · rw [if_neg h33]
        have h33x : pts.length = 33 := not_not.mp h33
        have hany : ¬ pts.any landmarkPresent = true := by
          simp [h33x] at h
          simpa using h
        rw [if_pos hany]
        exact ⟨fun i => rfl, fun k => rfl, fun i => rfl, fun i => rfl,
          fun k => rfl, fun k => rfl⟩

lemma badShaped_check (f : PoseFrame) (h : badShaped f = true) :
    checkFrameHasData f = false := by
  unfold badShaped at h
  unfold checkFrameHasData
  by_cases hc : (f.left_hand.isSome || f.right_hand.isSome) = true
  · rw [if_pos hc] at h ⊢
    cases hl : f.left_hand <;> cases hr : f.right_hand <;>
      simp_all [checkHand]
  · rw [if_neg hc] at h ⊢
    cases hp : f.pose <;> simp_all [checkPose]

lemma notPresent_check (f : PoseFrame) (h : framePresent f = false) :
    checkFrameHasData f = false := by
  unfold framePresent at h
  unfold checkFrameHasData
  by_cases hc : (f.left_hand.isSome || f.right_hand.isSome) = true
  · rw [if_pos hc] at h ⊢
    cases hl : f.left_hand <;> cases hr : f.right_hand <;>
      simp_all [checkHand]
  · rw [if_neg hc] at h ⊢
    cases hp : f.pose <;> simp_all [checkPose]

lemma check_eq_framePresent (f : PoseFrame) (h : wellShaped f = true) :
    checkFrameHasData f = framePresent f := by
  unfold wellShaped at h
  unfold checkFrameHasData framePresent
  by_cases hc : (f.left_hand.isSome || f.right_hand.isSome) = true
  · rw [if_pos hc] at h ⊢
    rw [if_pos hc]
    cases hl : f.left_hand <;> cases hr : f.right_hand <;>
      simp_all [checkHand]
  · rw [if_neg hc] at h ⊢
    rw [if_neg hc]
    cases hp : f.pose <;> simp_all [checkPose]

lemma avPlaySequence_cons (s : AvState) (f0 : PoseFrame)
    (rest : List PoseFrame) :
    avPlaySequence s (f0 :: rest) =
      if ((f0 :: rest).take 5).countP (fun f => ! checkFrameHasData f) =
          min 5 (f0 :: rest).length then
        ((updateFrame s (some f0)).1, false, [0])
      else
        playLoop s (f0 :: rest) 0 false 0 := rfl

lemma playLoop_invalid_streak (gs : List PoseFrame) :
    ∀ (s : AvState) (i consec : Nat), consec ≤ 9 → 10 - consec ≤ gs.length →
      (∀ g ∈ gs, checkFrameHasData g = false) →
      (playLoop s gs i true consec).2.1 = true ∧
      (playLoop s gs i true consec).2.2 = List.range' i (10 - consec) := by
  induction gs with
  | nil =>
    intro s i consec h9 hlen hall
    simp at hlen
    omega
  | cons g rest ih =>
    intro s i consec h9 hlen hall
    have hg : (updateFrame s (some g)).2 = false := by
      rw [updateFrame_snd]
      exact hall g (List.mem_cons_self g rest)
    by_cases hbreak : 10 ≤ consec + 1
    · have he : playLoop s (g :: rest) i true consec =
          ((updateFrame s (some g)).1, true, [i]) := by
        simp only [playLoop]
        simp [hg, hbreak]
      rw [he]
      refine ⟨rfl, ?_⟩
      have h1 : 10 - consec = 1 := by omega
      rw [h1]
      rfl
    · have he1 : (playLoop s (g :: rest) i true consec).2.1 =
          (playLoop (updateFrame s (some g)).1 rest (i + 1) true
            (consec + 1)).2.1 := by
        simp only [playLoop]
        simp [hg, hbreak]
      have he2 : (playLoop s (g :: rest) i true consec).2.2 =
          i :: (playLoop (updateFrame s (some g)).1 rest (i + 1) true
            (consec + 1)).2.2 := by
        simp only [playLoop]
        simp [hg, hbreak]
      have hlen2 : 10 - (consec + 1) ≤ rest.length := by
        simp only [List.length_cons] at hlen
        omega
      obtain ⟨g1, g2⟩ := ih (updateFrame s (some g)).1 (i + 1) (consec + 1)
        (by omega) hlen2 (fun g' h' => hall g' (List.mem_cons_of_mem _ h'))
      refine ⟨by rw [he1]; exact g1, ?_⟩
      rw [he2, g2]
      have h10 : 10 - consec = (10 - (consec + 1)) + 1 := by omega
      rw [h10, List.range'_succ]

lemma playLoop_valid_leading (fs : List PoseFrame) :
    ∀ (gs : List PoseFrame) (s : AvState) (i consec : Nat) (hv : Bool),
      fs ≠ [] → (∀ f ∈ fs, checkFrameHasData f = true) →
      (∀ g ∈ gs, checkFrameHasData g = false) → 10 ≤ gs.length →
      (playLoop s (fs ++ gs) i hv consec).2.1 = true ∧
      (playLoop s (fs ++ gs) i hv consec).2.2 =
        List.range' i (fs.length + 10) := by
  induction fs with
  | nil =>
    intro gs s i consec hv hne
    exact absurd rfl hne
  | cons f fs ih =>
    intro gs s i consec hv _ hfs hgs hlen
    have hf : (updateFrame s (some f)).2 = true := by
      rw [updateFrame_snd]
      exact hfs f (List.mem_cons_self f fs)
    have he1 : (playLoop s ((f :: fs) ++ gs) i hv consec).2.1 =
        (playLoop (updateFrame s (some f)).1 (fs ++ gs) (i + 1) true 0).2.1 := by
      rw [List.cons_append]
      simp only [playLoop]
      simp [hf]
    have he2 : (playLoop s ((f :: fs) ++ gs) i hv consec).2.2 =
        i :: (playLoop (updateFrame s (some f)).1 (fs ++ gs) (i + 1) true 0).2.2 := by
      rw [List.cons_append]
      simp only [playLoop]
      simp [hf]
    by_cases hfse : fs = []
    · subst hfse
      simp only [List.nil_append] at he1 he2
      obtain ⟨g1, g2⟩ := playLoop_invalid_streak gs (updateFrame s (some f)).1
        (i + 1) 0 (by omega) (by simpa using hlen) hgs
      refine ⟨by rw [he1]; exact g1, ?_⟩
      rw [he2, g2]
      conv_rhs => rw [show ([f].length + 10 : Nat) = 10 + 1 from by simp,
        List.range'_succ]
    · obtain ⟨g1, g2⟩ := ih gs (updateFrame s (some f)).1 (i + 1) 0 true hfse
        (fun f' h' => hfs f' (List.mem_cons_of_mem _ h')) hgs hlen
      refine ⟨by rw [he1]; exact g1, ?_⟩
      rw [he2, g2]
      conv_rhs => rw [List.length_cons,
        show fs.length + 1 + 10 = (fs.length + 10) + 1 from by omega,
        List.range'_succ]

/-- C6: `updateFrame` validity and hiding.  A `null` frame hides every
joint and bone of both rigs and returns `false`; so does a wrong-shaped
frame (every present hand array not exactly 21 rows - or, for a pose
frame, a pose array missing or not exactly 33 rows) and a frame whose
landmarks are all the `(0,0,0)` absence sentinel.  On a well-shaped frame
the returned flag is `true` exactly when at least one landmark of the
frame is present, independent of which joints sentinel filtering hid. -/
theorem c6_updateFrame_validity :
    (∀ s : AvState, updateFrame s none = (hideAllHands (hideAllPose s), false) ∧
      allHidden (updateFrame s none).1) ∧
    (∀ (s : AvState) (f : PoseFrame), badShaped f = true →
      allHidden (updateFrame s (some f)).1 ∧
      (updateFrame s (some f)).2 = false) ∧
    (∀ (s : AvState) (f : PoseFrame), framePresent f = false →
      allHidden (updateFrame s (some f)).1 ∧
      (updateFrame s (some f)).2 = false) ∧
    (∀ (s : AvState) (f : PoseFrame), wellShaped f = true →
      ((updateFrame s (some f)).2 = true ↔ framePresent f = true)) := by
  refine ⟨?_, ?_, ?_, ?_⟩
  · intro s
    exact ⟨rfl, fun i => rfl, fun k => rfl, fun i => rfl, fun i => rfl,
      fun k => rfl, fun k => rfl⟩
  · intro s f hb
    refine ⟨updateFrame_invalid_hidden s f (badShaped_check f hb), ?_⟩
    rw [updateFrame_snd]
    exact badShaped_check f hb
  · intro s f hp
    refine ⟨updateFrame_invalid_hidden s f (notPresent_check f hp), ?_⟩
    rw [updateFrame_snd]
    exact notPresent_check f hp
  · intro s f hw
    rw [updateFrame_snd, check_eq_framePresent f hw]

/-- C6 witness: the wrong-shaped hand frame hides everything and is
invalid; on the well-shaped one-present-landmark pose frame the validity
flag matches presence. -/
theorem c6_updateFrame_validity_witness :
    (allHidden (updateFrame initAvState (some badHand)).1 ∧
      (updateFrame initAvState (some badHand)).2 = false) ∧
    ((updateFrame initAvState (some ok33)).2 = true ↔
      framePresent ok33 = true) :=
  ⟨c6_updateFrame_validity.2.1 initAvState badHand (by decide),
   c6_updateFrame_validity.2.2.2 initAvState ok33 (by decide)⟩

/-- C10: after `updateFrame` on a non-null frame the pose rig and the hand
rigs are never simultaneously visible: a frame carrying hand data (a
truthy `left_hand` or `right_hand`) leaves all 33 pose joints and all pose
bones hidden, and a pose frame leaves all 42 hand joints and all hand
bones hidden; in particular one of the two rigs is fully hidden after
every call. -/
theorem c10_rigs_mutually_exclusive :
    ∀ (s : AvState) (f : PoseFrame),
      ((f.left_hand.isSome || f.right_hand.isSome) = true →
        poseAllHidden (updateFrame s (some f)).1) ∧
      ((f.left_hand.isSome || f.right_hand.isSome) = false →
        handsAllHidden (updateFrame s (some f)).1) ∧
      (poseAllHidden (updateFrame s (some f)).1 ∨
        handsAllHidden (updateFrame s (some f)).1) := by
  intro s f
  refine ⟨updateFrame_hand_poseHidden s f, updateFrame_pose_handsHidden s f, ?_⟩
  by_cases hc : (f.left_hand.isSome || f.right_hand.isSome) = true
  · exact Or.inl (updateFrame_hand_poseHidden s f hc)
  · exact Or.inr (updateFrame_pose_handsHidden s f (by simpa using hc))

/-- C10 witness: a hand frame hides the pose rig, a pose frame hides the
hand rigs. -/
theorem c10_rigs_witness :
    poseAllHidden (updateFrame initAvState (some okHand)).1 ∧
    handsAllHidden (updateFrame initAvState (some ok33)).1 :=
  ⟨(c10_rigs_mutually_exclusive initAvState okHand).1 (by decide),
   (c10_rigs_mutually_exclusive initAvState ok33).2.1 (by decide)⟩

/-- C7: `playSequence` of the renderer returns `false` immediately on an
empty frame list; when the first `min(5, length)` frames are all invalid
under `checkFrameHasData` it renders frame 0 once and returns `false`
without animating any later frame (whatever the later frames contain);
and `checkFrameHasData` is exactly the validity test of `updateFrame`
(stated without any rig state, hence non-mutating). -/
theorem c7_early_blank :
    (∀ s : AvState, avPlaySequence s [] = (s, false, [])) ∧
    (∀ (s : AvState) (f0 : PoseFrame) (rest : List PoseFrame),
      (∀ f ∈ (f0 :: rest).take 5, checkFrameHasData f = false) →
      avPlaySequence s (f0 :: rest) = ((updateFrame s (some f0)).1, false, [0])) ∧
    (∀ (s : AvState) (f : PoseFrame),
      (updateFrame s (some f)).2 = checkFrameHasData f) := by
  refine ⟨fun s => rfl, ?_, updateFrame_snd⟩
  intro s f0 rest hall
  rw [avPlaySequence_cons, if_pos ?_]
  have h1 : ((f0 :: rest).take 5).countP (fun f => ! checkFrameHasData f) =
      ((f0 :: rest).take 5).length := by
    rw [List.countP_eq_length]
    intro a ha
    simp [hall a ha]
  rw [h1, List.length_take]

/-- C7 witness: five blank frames followed by a valid frame still take the
early-blank exit, rendering only frame 0. -/
theorem c7_early_blank_witness :
    avPlaySequence initAvState (List.replicate 5 blank33 ++ [ok33]) =
      ((updateFrame initAvState (some blank33)).1, false, [0]) := by
  have h := c7_early_blank.2.1 initAvState blank33
    (List.replicate 4 blank33 ++ [ok33]) (by decide)
  exact h

/-- C8: once a valid frame has been shown, ten consecutive invalid frames
stop the main iteration early and the sticky flag is returned.  For every
run of at least 5 valid frames followed by at least 10 invalid ones, the
result is `true` and exactly the first `fs.length + 10` frames are
rendered.  In particular 10 valid frames followed by 15 invalid ones
return `true` and render exactly frames 0..19, stopping at frame 20, not
frame 25. -/
theorem c8_blank_streak_stops_early :
    (∀ (s : AvState) (fs gs : List PoseFrame),
      5 ≤ fs.length → (∀ f ∈ fs, checkFrameHasData f = true) →
      (∀ g ∈ gs, checkFrameHasData g = false) → 10 ≤ gs.length →
      (avPlaySequence s (fs ++ gs)).2.1 = true ∧
      (avPlaySequence s (fs ++ gs)).2.2 = List.range' 0 (fs.length + 10)) ∧
    ((avPlaySequence initAvState c8Frames).2.1 = true ∧
      (avPlaySequence initAvState c8Frames).2.2 = List.range 20) := by
  have main : ∀ (s : AvState) (fs gs : List PoseFrame),
      5 ≤ fs.length → (∀ f ∈ fs, checkFrameHasData f = true) →
      (∀ g ∈ gs, checkFrameHasData g = false) → 10 ≤ gs.length →
      (avPlaySequence s (fs ++ gs)).2.1 = true ∧
      (avPlaySequence s (fs ++ gs)).2.2 = List.range' 0 (fs.length + 10) := by
    intro s fs gs h5 hfs hgs h10
    cases fs with
    | nil => simp at h5
    | cons f fs2 =>
      rw [List.cons_append, avPlaySequence_cons, if_neg ?_]
      · have h := playLoop_valid_leading (f :: fs2) gs s 0 0 false
          (by simp) hfs hgs h10
        rw [List.cons_append] at h
        exact h
      · intro hcount
        rw [← List.length_take 5 (f :: (fs2 ++ gs))] at hcount
        have hallblank := List.countP_eq_length.mp hcount
        have hfmem : f ∈ (f :: (fs2 ++ gs)).take 5 := by
          rw [List.take_succ_cons]
          exact List.mem_cons_self f _
        have hbad := hallblank f hfmem
        rw [hfs f (List.mem_cons_self f fs2)] at hbad
        simp at hbad
  refine ⟨main, ?_⟩
  have h := main initAvState (List.replicate 10 ok33) (List.replicate 15 blank33)
    (by simp) ?_ ?_ (by simp)
  · rw [show (List.replicate 10 ok33).length + 10 = 20 from by simp,
      ← List.range_eq_range'] at h
    exact h
  · intro f hf
    rw [List.eq_of_mem_replicate hf]
    decide
  · intro g hg
    rw [List.eq_of_mem_replicate hg]
    decide

/-- C8 witness: instantiation of the general part at the concrete frame
lists of the claim. -/
theorem c8_blank_streak_witness :
    (avPlaySequence initAvState
        (List.replicate 10 ok33 ++ List.replicate 15 blank33)).2.1 = true ∧
    (avPlaySequence initAvState
        (List.replicate 10 ok33 ++ List.replicate 15 blank33)).2.2 =
      List.range' 0 ((List.replicate 10 ok33).length + 10) :=
  c8_blank_streak_stops_early.1 initAvState (List.replicate 10 ok33)
    (List.replicate 15 blank33) (by simp)
    (fun f hf => by rw [List.eq_of_mem_replicate hf]; decide)
    (fun g hg => by rw [List.eq_of_mem_replicate hg]; decide) (by simp)

/-- C9 witness: a concrete failing fetch that takes 50 ms; the item still
returns true, renders nothing, and sleeps the remaining 2950 ms. -/
theorem c9_fetch_failure_witness :
    (playSingleSignRun (exSign "I") 7 c9WitSt).val = some true ∧
    (∀ p ∈ (playSingleSignRun (exSign "I") 7 c9WitSt).fin.trace, ∀ fs q,
      p.2 ≠ Event.renderSequence fs q) ∧
    ((⟨[], 50, none⟩ : EnvAct).dt < 3000 →
      Event.sleep (3000 - (⟨[], 50, none⟩ : EnvAct).dt) ∈
        (playSingleSignRun (exSign "I") 7 c9WitSt).fin.trace.map Prod.snd) ∧
    (¬ (⟨[], 50, none⟩ : EnvAct).dt < 3000 → ∀ ms,
      Event.sleep ms ∉
        (playSingleSignRun (exSign "I") 7 c9WitSt).fin.trace.map Prod.snd) :=
  c9_fetch_failure_absorbed.1 (exSign "I") 7 c9WitSt ⟨[], 50, none⟩ idleAct []
    rfl (by decide) rfl rfl rfl

end Unmute
